import Mathlib

/-
Shallow embedding of src/converter.py, a Java-to-Node.js codebase analyzer
and converter built on LangChain.

All pure control flow, string processing and data plumbing of the Python
source are translated directly into executable Lean definitions.  The
external collaborators (the LLM provider, the JSON decoding layer of the
pydantic output parsing step, the Python json module, the LangChain text
splitter, and the file system) are passed in as oracle parameters: each
oracle value stands for the outcome of one external call, so theorems
quantify over every possible behavior of the collaborators.

Machine integers do not occur in the source (only Python arbitrary
precision ints), so Nat is used throughout.
-/

/- ===================== generic string helpers ===================== -/

/-- Python substring test: containsSub sub s models the Python expression
sub in s, true when sub occurs contiguously inside s. -/
def containsSub (sub : List Char) : List Char → Bool
  | [] => sub.isEmpty
  | c :: cs => sub.isPrefixOf (c :: cs) || containsSub sub cs

/-- String version of containsSub, modelling the Python operator in
on str values. -/
def pyIn (sub s : String) : Bool :=
  containsSub sub.data s.data

/-- Models the Python call name.replace applied with pattern .java and
empty replacement, as on converter.py lines 340, 361 and 428: every
occurrence of .java is removed, scanning left to right. -/
def stripDotJava : List Char → List Char
  | '.' :: 'j' :: 'a' :: 'v' :: 'a' :: rest => stripDotJava rest
  | c :: cs => c :: stripDotJava cs
  | [] => []

/-- The ASCII whitespace characters stripped by Python str.strip.  The
source only ever strips ASCII output, so the Unicode cases of str.strip
are not needed. -/
def pyWhitespace (c : Char) : Bool :=
  c == ' ' || c == '\t' || c == '\n' || c == '\r' || c == '\x0b' || c == '\x0c'

/-- Models Python str.strip with no argument: whitespace removed from
both ends. -/
def pyStrip (l : List Char) : List Char :=
  ((l.dropWhile pyWhitespace).reverse.dropWhile pyWhitespace).reverse

/-- First-occurrence splitter: splitOnceSub sub l returns some (b, a)
when l = b ++ sub ++ a and no occurrence of sub starts earlier, and none
when sub does not occur in l.  This models leftmost matching of a literal
delimiter by Python re.search. -/
def splitOnceSub (sub : List Char) : List Char → Option (List Char × List Char)
  | [] => if sub.isEmpty then some ([], []) else none
  | c :: cs =>
    if sub.isPrefixOf (c :: cs) then some ([], (c :: cs).drop sub.length)
    else
      match splitOnceSub sub cs with
      | some (b, a) => some (c :: b, a)
      | none => none

/-- Index of the first occurrence of a character, or none. -/
def idxOfChar (ch : Char) : List Char → Option Nat
  | [] => none
  | c :: cs => if c == ch then some 0 else (idxOfChar ch cs).map (· + 1)

/-- Concatenation of the images of a list under a list-valued function. -/
def concatMap (g : α → List β) : List α → List β
  | [] => []
  | x :: xs => g x ++ concatMap g xs

/- ===================== data model ===================== -/

/-- One scanned Java source file, as produced by CodebaseScanner.scan
(converter.py lines 203 to 209; dict keys path, name, content, type, loc). -/
structure FileInfo where
  path : String
  name : String
  content : String
  typ : String
  loc : Nat
deriving DecidableEq

/-- One method record.  On the whole-content path these are instances of
the pydantic Method model (converter.py lines 146 to 154); on the chunked
path they are raw JSON objects taken from the provider response without
validation (converter.py line 418). -/
structure MethodRec where
  name : String
  signature : String
  description : String
  complexity : String
deriving DecidableEq

/-- The pydantic Module model (converter.py lines 156 to 164). -/
structure ModuleRec where
  name : String
  description : String
  methods : List MethodRec
  dependencies : List String
deriving DecidableEq

/-- A permissively parsed chunk response object on the chunked path:
each of the three keys may be absent (converter.py lines 417 to 422). -/
structure ChunkData where
  methods : Option (List MethodRec)
  dependencies : Option (List String)
  description : Option String
deriving DecidableEq

/-- The per-file analysis record returned by JavaAnalyzer.analyze_file
(converter.py lines 339 to 355, 360 to 368 and 427 to 435). -/
structure UnitRecord where
  name : String
  description : String
  methods : List MethodRec
  dependencies : List String
  linesOfCode : Nat
  filePath : String
  typ : String
deriving DecidableEq

/-- The pydantic pattern constraint on Method.complexity,
converter.py line 154. -/
def isValidComplexity (c : String) : Bool :=
  c == "Low" || c == "Medium" || c == "High"

/-- The field validation performed by the pydantic Method model inside
PydanticOutputParser.parse: every method must satisfy the complexity
pattern, otherwise parsing raises a validation error.  The decoding of
the raw response text into a ModuleRec shape is the external JSON layer
and is a separate oracle. -/
def pydanticValidate (m : ModuleRec) : Except String ModuleRec :=
  if m.methods.all (fun mm => isValidComplexity mm.complexity) then Except.ok m
  else Except.error "validation error: complexity must match the pattern Low, Medium or High"

/-- The fallback structure returned by analyze_file on failure,
converter.py lines 360 to 368. -/
def degradedRecord (f : FileInfo) : UnitRecord :=
  { name := ⟨stripDotJava f.name.data⟩
    description := "Analysis unavailable"
    methods := []
    dependencies := []
    linesOfCode := f.loc
    filePath := f.path
    typ := f.typ }

/- ===================== analyzer ===================== -/

/-- Oracles for the external collaborators consulted by JavaAnalyzer.
chainInvoke is the whole-content analysis chain call (prompt, LLM and
message envelope) for a given file, producing the response text or an
exception message; jsonToRaw is the JSON decoding step of
PydanticOutputParser.parse, producing the typed raw module shape or a
parse failure; llmInvoke is one direct provider call on a prompt string;
jloads is Python json.loads restricted to the span strings actually
handed to it, none standing for a raised JSONDecodeError; split is the
LangChain RecursiveCharacterTextSplitter on the file content. -/
structure AnalysisOracle where
  chainInvoke : FileInfo → Except String String
  jsonToRaw : String → Except String ModuleRec
  llmInvoke : String → Except String String
  jloads : String → Option ChunkData
  split : String → List String

/-- The simplified per-chunk prompt built at converter.py lines 399
to 408. -/
def chunkPrompt (segment : String) : String :=
  "Analyze this Java code segment:\n\n" ++ segment ++
  "\n\nExtract:\n1. Method definitions (name, signature, description, complexity)\n2. Import statements\n3. Brief description\n\nReturn as JSON with fields: methods (array), dependencies (array), description (string)"

/-- Models re.search applied with the greedy pattern of a brace, any
characters and a brace under DOTALL (converter.py line 414): the match,
when it exists, runs from the first open brace to the last close brace
of the text. -/
def grabSpan (s : String) : Option String :=
  let l := s.data
  match idxOfChar '\x7b' l, idxOfChar '\x7d' l.reverse with
  | some i, some r =>
    let j := l.length - 1 - r
    if i < j then some ⟨(l.take (j + 1)).drop i⟩ else none
  | _, _ => none

/-- Modelled from the spec: the spec describes chunk parsing as locating
the first balanced brace span of the response text.  This definition
follows those words and exists only to be compared with grabSpan, the
embedding of what the source actually does. -/
def balancedClose : List Char → Nat → Nat → Option Nat
  | [], _, _ => none
  | c :: cs, d, i =>
    if c == '\x7d' then (if d == 0 then some i else balancedClose cs (d - 1) (i + 1))
    else if c == '\x7b' then balancedClose cs (d + 1) (i + 1)
    else balancedClose cs d (i + 1)

/-- Modelled from the spec: the first balanced brace-delimited span of a
string, per the spec words for the chunked parsing step (spec section
4.3 step 4). -/
def firstBalancedSpan (s : String) : Option String :=
  let l := s.data
  match idxOfChar '\x7b' l with
  | none => none
  | some i =>
    let tail := l.drop (i + 1)
    match balancedClose tail 0 0 with
    | none => none
    | some j => some ⟨'\x7b' :: tail.take (j + 1)⟩

/-- The outcome of processing one chunk inside the loop at converter.py
lines 396 to 424: call the provider on the simplified prompt, locate the
regex span, run json.loads on it; any failure (provider exception,
missing span, JSON decode error) yields none, which the bare except of
the loop body turns into a silent continue. -/
def chunkParse (o : AnalysisOracle) (segment : String) : Option ChunkData :=
  match o.llmInvoke (chunkPrompt segment) with
  | Except.error _ => none
  | Except.ok text =>
    match grabSpan text with
    | none => none
    | some span => o.jloads span

/-- The three accumulators of the chunk loop: all_methods,
all_dependencies and descriptions (converter.py lines 392 to 394).
all_dependencies is a Python set; it is modelled as a duplicate-free
list in insertion order, membership being the only meaningful
observation since Python set iteration order is unspecified. -/
structure ChunkAcc where
  methods : List MethodRec
  deps : List String
  descs : List String
deriving DecidableEq

/-- Set insertion for the all_dependencies accumulator. -/
def insertDep (l : List String) (x : String) : List String :=
  if x ∈ l then l else l ++ [x]

/-- Models all_dependencies.update(xs). -/
def insertDeps (l : List String) (xs : List String) : List String :=
  xs.foldl insertDep l

/-- The three key-guarded accumulator updates at converter.py lines 417
to 422: extend all_methods, update the dependency set, append the
description, each only when the corresponding key is present. -/
def accumulate (acc : ChunkAcc) (cd : ChunkData) : ChunkAcc :=
  { methods := acc.methods ++ cd.methods.getD []
    deps := insertDeps acc.deps (cd.dependencies.getD [])
    descs := acc.descs ++ (cd.description.map (fun d => [d])).getD [] }

/-- One iteration of the chunk loop body (converter.py lines 396
to 424). -/
def chunkStep (o : AnalysisOracle) (acc : ChunkAcc) (segment : String) : ChunkAcc :=
  match chunkParse o segment with
  | none => acc
  | some cd => accumulate acc cd

/-- JavaAnalyzer._analyze_large_file (converter.py lines 370 to 435):
split the content, iterate over at most the first five chunks, and
assemble the combined record.  The description is the space join of the
collected descriptions when any were collected, else the fixed
placeholder (line 429). -/
def _analyze_large_file (o : AnalysisOracle) (f : FileInfo) : UnitRecord :=
  let chunks := o.split f.content
  let acc := (chunks.take 5).foldl (chunkStep o) ⟨[], [], []⟩
  { name := ⟨stripDotJava f.name.data⟩
    description := if acc.descs.isEmpty then "Large module with multiple components"
                   else String.intercalate " " acc.descs
    methods := acc.methods
    dependencies := acc.deps
    linesOfCode := f.loc
    filePath := f.path
    typ := f.typ }

/-- JavaAnalyzer.analyze_file (converter.py lines 309 to 368): files
whose content is strictly longer than 10000 characters go to the chunked
path; otherwise the analysis chain is invoked once, the response parsed
and validated, and any failure along the way is caught by the enclosing
try and turned into the degraded record. -/
def analyze_file (o : AnalysisOracle) (f : FileInfo) : UnitRecord :=
  if f.content.length > 10000 then _analyze_large_file o f
  else
    match o.chainInvoke f with
    | Except.error _ => degradedRecord f
    | Except.ok text =>
      match o.jsonToRaw text with
      | Except.error _ => degradedRecord f
      | Except.ok raw =>
        match pydanticValidate raw with
        | Except.error _ => degradedRecord f
        | Except.ok m =>
          { name := ⟨stripDotJava f.name.data⟩
            description := m.description
            methods := m.methods
            dependencies := m.dependencies
            linesOfCode := f.loc
            filePath := f.path
            typ := f.typ }

/- ===================== categorizer ===================== -/

/-- CodebaseScanner._categorize (converter.py lines 216 to 245): the
cascading naming-convention rules, evaluated top to bottom. -/
def _categorize (filename : String) (content : String) : String :=
  if pyIn "Controller" filename || pyIn "@Controller" content || pyIn "@RestController" content then "Controller"
  else if pyIn "Service" filename || pyIn "@Service" content then "Service"
  else if pyIn "Repository" filename || pyIn "DAO" filename || pyIn "@Repository" content then "DAO"
  else if pyIn "Model" filename || pyIn "Entity" filename || pyIn "@Entity" content then "Model"
  else if pyIn "DTO" filename then "DTO"
  else if pyIn "Config" filename || pyIn "@Configuration" content then "Configuration"
  else if pyIn "Exception" filename then "Exception"
  else if pyIn "@Component" content then "Component"
  else "Util"

/-- Modelled from the spec (section 4.1 and design note 2): the
categorizer as an ordered list of predicate and category pairs with
first match winning and Util as the default. -/
def catRules : List ((String → String → Bool) × String) :=
  [ (fun n c => pyIn "Controller" n || pyIn "@Controller" c || pyIn "@RestController" c, "Controller")
  , (fun n c => pyIn "Service" n || pyIn "@Service" c, "Service")
  , (fun n c => pyIn "Repository" n || pyIn "DAO" n || pyIn "@Repository" c, "DAO")
  , (fun n c => pyIn "Model" n || pyIn "Entity" n || pyIn "@Entity" c, "Model")
  , (fun n _ => pyIn "DTO" n, "DTO")
  , (fun n c => pyIn "Config" n || pyIn "@Configuration" c, "Configuration")
  , (fun n _ => pyIn "Exception" n, "Exception")
  , (fun _ c => pyIn "@Component" c, "Component") ]

/-- First-match evaluation of an ordered rule list, defaulting
to Util. -/
def firstMatch : List ((String → String → Bool) × String) → String → String → String
  | [], _, _ => "Util"
  | (p, cat) :: rest, n, c => if p n c then cat else firstMatch rest n c

/-- Modelled from the spec: the categorizer specified as first-match
evaluation of the ordered rule list. -/
def categorizeSpec (n c : String) : String :=
  firstMatch catRules n c

/-- The closed category set of the spec (section 4.1). -/
def categorySet : List String :=
  ["Controller", "Service", "DAO", "Model", "DTO", "Configuration", "Exception", "Component", "Util"]

/- ===================== two-stage converter ===================== -/

/-- Oracles for the two LLM calls of the conversion chain
(converter.py lines 531 to 538).  stageA is the structure analysis call
on the module type and the Java code; stageB is the generation call on
the stage A output, the module type, the Java code and the framework
hint.  Either may raise, carried as an error message. -/
structure ConvChain where
  stageA : String → String → Except String String
  stageB : String → String → String → String → Except String String

/-- Sequential execution of the LCEL chain: stage A output is fed as the
structure input of stage B (converter.py lines 531 to 538). -/
def runChain (ch : ConvChain) (moduleType javaCode framework : String) : Except String String :=
  match ch.stageA moduleType javaCode with
  | Except.error e => Except.error e
  | Except.ok structureText => ch.stageB structureText moduleType javaCode framework

/-- The framework_map lookup with its default (converter.py lines 553
to 563 and 570). -/
def frameworkFor (t : String) : String :=
  if t == "Controller" then "Express.js with routing and middleware"
  else if t == "Service" then "ES6 class with business logic"
  else if t == "DAO" then "Sequelize ORM for database access"
  else if t == "Model" then "ES6 class for data structure"
  else if t == "DTO" then "Plain JavaScript object for data transfer"
  else if t == "Configuration" then "Module exporting configuration objects"
  else if t == "Exception" then "Custom Error class"
  else if t == "Component" then "ES6 module or class"
  else if t == "Util" then "Collection of utility functions"
  else "Node.js patterns"

/-- The fence delimiter of _cleanup_code, three backticks. -/
def fenceL : List Char := ['\x60', '\x60', '\x60']

/-- The optional language annotation recognized by the _cleanup_code
regex: exactly the literal word javascript. -/
def javTag : List Char := "javascript".data

/-- CodeConverter._cleanup_code on character lists (converter.py lines
578 to 596): re.search with the pattern of a fence, an optional literal
javascript group, a lazy body group and a closing fence, under DOTALL.
Leftmost lazy matching amounts to: take the first fence as the opener
and the next fence as the closer; the optional group strips a leading
literal javascript from the enclosed text; the result is stripped.  When
no complete fenced block exists the input is returned unchanged. -/
def cleanupChars (l : List Char) : List Char :=
  match splitOnceSub fenceL l with
  | none => l
  | some (_, rest) =>
    match splitOnceSub fenceL rest with
    | none => l
    | some (body0, _) =>
      pyStrip (if javTag.isPrefixOf body0 then body0.drop javTag.length else body0)

/-- CodeConverter._cleanup_code (converter.py lines 578 to 596). -/
def _cleanup_code (raw : String) : String :=
  ⟨cleanupChars raw.data⟩

/-- CodeConverter.convert (converter.py lines 540 to 576): invoke the
chain with the category-specific framework hint, clean the output, and
turn any exception from either stage into the textual stub built at line
576.  The stub embeds str(e) in full; only the log line at 575
truncates. -/
def convert (ch : ConvChain) (java_code module_type : String) : String :=
  match runChain ch module_type java_code (frameworkFor module_type) with
  | Except.ok nodejs_code => _cleanup_code nodejs_code
  | Except.error e => "// Conversion failed for " ++ module_type ++ "\n// Error: " ++ e

/- ===================== provider selection ===================== -/

/-- The credential environment variables read by the provider
initialization functions (converter.py lines 65, 78 and 92). -/
structure Env where
  googleKey : Option String
  geminiKey : Option String
  anthropicKey : Option String
  openaiKey : Option String
deriving DecidableEq

/-- A Python exception as observed by the handlers of the explicit
provider path: an ImportError, a ValueError, or any other exception. -/
inductive PyExc where
  | importError (msg : String)
  | valueError (msg : String)
  | otherError (msg : String)
deriving DecidableEq

/-- Constructor outcomes for the three provider clients: the client
constructor either returns (ok) or raises (importError for a missing
package at the local import statement, otherwise an arbitrary
exception). -/
structure Ctors where
  gemini : Except PyExc Unit
  anthropic : Except PyExc Unit
  openai : Except PyExc Unit

/-- init_gemini (converter.py lines 64 to 75): key presence is the or
of GOOGLE_API_KEY and GEMINI_API_KEY; with a key the import and the
constructor run and may raise; without a key the pair None, None is
returned, modelled as ok none. -/
def init_gemini (env : Env) (ct : Ctors) : Except PyExc (Option String) :=
  if (env.googleKey <|> env.geminiKey).isSome then
    match ct.gemini with
    | Except.ok _ => Except.ok (some "Gemini")
    | Except.error e => Except.error e
  else Except.ok none

/-- init_anthropic (converter.py lines 77 to 89). -/
def init_anthropic (env : Env) (ct : Ctors) : Except PyExc (Option String) :=
  if env.anthropicKey.isSome then
    match ct.anthropic with
    | Except.ok _ => Except.ok (some "Anthropic")
    | Except.error e => Except.error e
  else Except.ok none

/-- init_openai (converter.py lines 91 to 102). -/
def init_openai (env : Env) (ct : Ctors) : Except PyExc (Option String) :=
  if env.openaiKey.isSome then
    match ct.openai with
    | Except.ok _ => Except.ok (some "Openai")
    | Except.error e => Except.error e
  else Except.ok none

/-- The no-credential configuration error raised at converter.py lines
136 to 139. -/
def noKeyMsg : String :=
  "No valid API key found for any provider!\nPlease set GOOGLE_API_KEY, ANTHROPIC_API_KEY, or OPENAI_API_KEY."

/-- The message text carried by a Python exception, as interpolated by
an f-string. -/
def pyExcMsg : PyExc → String
  | PyExc.importError m => m
  | PyExc.valueError m => m
  | PyExc.otherError m => m

/-- initialize_llm of converter.py lines 44 to 139 (named init_llm
here).  Explicit path: the requested provider alone is attempted inside
a try whose ImportError handler raises the missing-dependency ValueError
and whose generic handler wraps every other exception, including the
ValueError raised for a missing key and the one raised for an unknown
provider name, into the initialization-failed ValueError.  Fallback
path: the three providers are attempted in the fixed order with no
handler at all, so a constructor exception propagates unchanged; the
no-key configuration error is raised only when every key is absent. -/
def init_llm (env : Env) (ct : Ctors) : Option String → Except PyExc String
  | some p =>
    let attempt : Except PyExc (Option String) :=
      if p == "google" then init_gemini env ct
      else if p == "anthropic" then init_anthropic env ct
      else if p == "openai" then init_openai env ct
      else Except.error (PyExc.valueError ("Unsupported provider: " ++ p))
    match attempt with
    | Except.ok (some n) => Except.ok n
    | Except.ok none =>
      Except.error (PyExc.valueError
        ("Initialization failed for " ++ p ++ ": API key for specified provider \x27" ++ p ++ "\x27 not found."))
    | Except.error (PyExc.importError m) =>
      Except.error (PyExc.valueError ("Missing dependency for " ++ p ++ ": " ++ m))
    | Except.error e =>
      Except.error (PyExc.valueError ("Initialization failed for " ++ p ++ ": " ++ pyExcMsg e))
  | none =>
    match init_gemini env ct with
    | Except.error e => Except.error e
    | Except.ok (some n) => Except.ok n
    | Except.ok none =>
      match init_anthropic env ct with
      | Except.error e => Except.error e
      | Except.ok (some n) => Except.ok n
      | Except.ok none =>
        match init_openai env ct with
        | Except.error e => Except.error e
        | Except.ok (some n) => Except.ok n
        | Except.ok none => Except.error (PyExc.valueError noKeyMsg)

/- ===================== conversion phase of main ===================== -/

/-- One entry of the conversions.json manifest (converter.py lines 715
to 719). -/
structure ConvEntry where
  original : String
  typ : String
  outputPath : String
deriving DecidableEq

/-- The collaborators of the conversion loop in main: the conversion
chain oracle, the file read at converter.py line 704 (error standing for
FileNotFoundError or any other read exception) and the output write at
lines 712 to 713 (error standing for a write exception caught by the
generic handler). -/
structure ConvEnv where
  chain : ConvChain
  readFile : String → Except String String
  writeFile : String → String → Except String Unit
  outputDir : String

/-- One iteration of the conversion loop body (converter.py lines 698
to 725), threading the converted_files accumulator and, for
observability, the list of records on which converter.convert was
actually invoked.  The guard at line 699 requires a truthy record with a
non-empty methods list; records loaded from JSON are modelled as present
(non-null).  A failed read skips the record before convert is called; a
failed write skips the manifest entry after it. -/
def convertStep (env : ConvEnv) (acc : List ConvEntry × List (String × String)) (m : UnitRecord) :
    List ConvEntry × List (String × String) :=
  if m.methods.isEmpty then acc
  else
    match env.readFile m.filePath with
    | Except.error _ => acc
    | Except.ok java_code =>
      let nodejs_code := convert env.chain java_code m.typ
      let calls := acc.2 ++ [(m.name, m.typ)]
      let outPath := env.outputDir ++ "/converted/" ++ m.name ++ ".js"
      match env.writeFile outPath nodejs_code with
      | Except.error _ => (acc.1, calls)
      | Except.ok _ => (acc.1 ++ [ConvEntry.mk m.name m.typ outPath], calls)

/-- The converted_files list produced by the conversion loop. -/
def convertPhase (env : ConvEnv) (records : List UnitRecord) : List ConvEntry :=
  (records.foldl (convertStep env) ([], [])).1

/-- The records on which converter.convert is invoked by the loop. -/
def convertCalls (env : ConvEnv) (records : List UnitRecord) : List (String × String) :=
  (records.foldl (convertStep env) ([], [])).2

/- ===================== main ===================== -/

/-- The stage selector of the command line (choices analyze and
convert, default both). -/
inductive RunStage where
  | analyze
  | convert
deriving DecidableEq

/-- The command line arguments relevant to control flow. -/
structure MainArgs where
  stage : Option RunStage
  provider : Option String

/-- A Python error escaping main uncaught: a NameError on an unassigned
local, or an exception propagated out of an expression. -/
inductive PyRunError where
  | nameError (var : String)
  | propagated (e : PyExc)
deriving DecidableEq

/-- main (converter.py lines 603 to 745).  The provider is initialized
inside a try that catches only ValueError by printing and returning;
the analyze branch scans, analyzes each file and writes analysis.json;
the convert branch loads the analysis artifact (the one just written
when the analyze branch ran, else the records loaded from disk),
re-initializes the provider with no handler, and runs the conversion
loop.  After the branches, the conversions.json write reads
converted_files and the final summary reads modules: each is a Python
local assigned only inside its own branch, so referencing it after a
single-stage run raises a NameError. -/
def mainRun (args : MainArgs) (env : Env) (ct : Ctors) (scanned : List FileInfo)
    (o : AnalysisOracle) (analysisExists : Bool) (loaded : List UnitRecord)
    (cenv : ConvEnv) : Except PyRunError Unit :=
  match init_llm env ct args.provider with
  | Except.error (PyExc.valueError _) => Except.ok ()
  | Except.error e => Except.error (PyRunError.propagated e)
  | Except.ok _ =>
    let doAnalyze : Bool := match args.stage with
      | none => true
      | some RunStage.analyze => true
      | some RunStage.convert => false
    let doConvert : Bool := match args.stage with
      | none => true
      | some RunStage.convert => true
      | some RunStage.analyze => false
    if doAnalyze && scanned.isEmpty then Except.ok ()
    else
      let modulesVar : Option (List UnitRecord) :=
        if doAnalyze then some (scanned.map (analyze_file o)) else none
      let analysisOnDisk : Bool := analysisExists || doAnalyze
      if doConvert && !analysisOnDisk then Except.ok ()
      else
        match (if doConvert then
                 match init_llm env ct args.provider with
                 | Except.error e => Except.error (PyRunError.propagated e)
                 | Except.ok _ =>
                   let mods := match modulesVar with
                     | some ms => ms
                     | none => loaded
                   Except.ok (some (convertPhase cenv mods))
               else Except.ok none : Except PyRunError (Option (List ConvEntry))) with
        | Except.error e => Except.error e
        | Except.ok convertedVar =>
          match convertedVar with
          | none => Except.error (PyRunError.nameError "converted_files")
          | some _ =>
            match modulesVar with
            | none => Except.error (PyRunError.nameError "modules")
            | some _ => Except.ok ()

/- ===================== concrete fixtures ===================== -/

/-- A file content of n characters. -/
def bigA (n : Nat) : String :=
  ⟨List.replicate n 'a'⟩

/-- An oversized unit: content of 10001 characters, strictly over the
large-file threshold. -/
def bigUnit : FileInfo :=
  { path := "/src/main/java/Big.java", name := "Big.java", content := bigA 10001,
    typ := "Service", loc := 420 }

/-- A unit whose content length is exactly the threshold 10000. -/
def edgeUnit : FileInfo :=
  { path := "/src/main/java/Edge.java", name := "Edge.java", content := bigA 10000,
    typ := "Service", loc := 200 }

/-- A small unit analyzed on the whole-content path. -/
def smallUnit : FileInfo :=
  { path := "/src/main/java/Small.java", name := "Small.java", content := "class Small",
    typ := "Util", loc := 3 }

/-- A chunk-path method record whose complexity is outside the closed
set. -/
def badMethod : MethodRec :=
  { name := "processAll", signature := "void processAll()",
    description := "Does everything", complexity := "VeryHigh" }

/-- A concrete chunk response: a single JSON object carrying a method
with the invalid complexity VeryHigh.  The text begins with the open
brace and ends with the close brace, so the greedy regex span is the
whole text. -/
def respBad : String :=
  "\x7b\"methods\": [\x7b\"name\": \"processAll\", \"signature\": \"void processAll()\", \"description\": \"Does everything\", \"complexity\": \"VeryHigh\"\x7d], \"dependencies\": [\"java.util.List\"], \"description\": \"Batch processing helper\"\x7d"

/-- Python json.loads on the only span string produced in the bad
complexity scenario: respBad is a valid JSON object and decodes to the
chunk data below; every other input is irrelevant to the scenario and
modelled as a decode failure. -/
def jloadsBad : String → Option ChunkData := fun s =>
  if s == respBad then
    some { methods := some [badMethod], dependencies := some ["java.util.List"],
           description := some "Batch processing helper" }
  else none

/-- Oracle for the bad complexity chunk scenario: one chunk, whose
response is respBad. -/
def oracleBadComplexity : AnalysisOracle :=
  { chainInvoke := fun _ => Except.error "not consulted"
    jsonToRaw := fun _ => Except.error "not consulted"
    llmInvoke := fun _ => Except.ok respBad
    jloads := jloadsBad
    split := fun _ => ["segment one"] }

/-- Oracle whose provider raises on every call. -/
def oracleAllFail : AnalysisOracle :=
  { chainInvoke := fun _ => Except.error "ConnectionError: provider unreachable"
    jsonToRaw := fun _ => Except.error "not consulted"
    llmInvoke := fun _ => Except.error "ConnectionError: provider unreachable"
    jloads := fun _ => none
    split := fun _ => ["c1", "c2", "c3", "c4", "c5", "c6", "c7"] }

/-- The first balanced JSON object of the two-object chunk response
below: valid JSON on its own. -/
def balSpan : String :=
  "\x7b\"description\": \"alpha\"\x7d"

/-- A chunk response holding two JSON objects separated by a space.
The first balanced brace span is balSpan; the greedy regex span is the
whole text, which is not valid JSON (trailing data), so json.loads
raises on it. -/
def respTwoObjs : String :=
  balSpan ++ " \x7b\"description\": \"beta\"\x7d"

/-- Python json.loads on the spans arising in the two-object scenario:
the balanced span decodes, the greedy whole-text span raises. -/
def jloadsTwoObjs : String → Option ChunkData := fun s =>
  if s == balSpan then some { methods := none, dependencies := none, description := some "alpha" }
  else none

/-- Oracle for the two-object chunk scenario: one chunk, whose response
is respTwoObjs. -/
def oracleTwoObjs : AnalysisOracle :=
  { chainInvoke := fun _ => Except.error "not consulted"
    jsonToRaw := fun _ => Except.error "not consulted"
    llmInvoke := fun _ => Except.ok respTwoObjs
    jloads := jloadsTwoObjs
    split := fun _ => ["seg"] }

/-- A validated module produced by a successful whole-content parse. -/
def goodModule : ModuleRec :=
  { name := "Small", description := "A small helper",
    methods := [{ name := "run", signature := "void run()", description := "runs", complexity := "Low" }],
    dependencies := ["java.util.List"] }

/-- A raw module whose only method has the invalid complexity
Extreme. -/
def badModule : ModuleRec :=
  { name := "Small", description := "A small helper",
    methods := [{ name := "run", signature := "void run()", description := "runs", complexity := "Extreme" }],
    dependencies := [] }

/-- Oracle for a successful whole-content analysis. -/
def oracleWholeGood : AnalysisOracle :=
  { chainInvoke := fun _ => Except.ok "RESPONSE"
    jsonToRaw := fun s => if s == "RESPONSE" then Except.ok goodModule else Except.error "parse failure"
    llmInvoke := fun _ => Except.error "not consulted"
    jloads := fun _ => none
    split := fun _ => [] }

/-- Oracle for a whole-content analysis whose response decodes to a
module with an invalid complexity. -/
def oracleWholeBad : AnalysisOracle :=
  { chainInvoke := fun _ => Except.ok "RESPONSE"
    jsonToRaw := fun s => if s == "RESPONSE" then Except.ok badModule else Except.error "parse failure"
    llmInvoke := fun _ => Except.error "not consulted"
    jloads := fun _ => none
    split := fun _ => [] }

/-- A 150 character error message, longer than the 100 character
truncation used by the log line of convert. -/
def longMsg : String :=
  "012345678901234567890123456789012345678901234567890123456789012345678901234567890123456789012345678901234567890123456789012345678901234567890123456789"

/-- A conversion chain whose stage A raises with longMsg. -/
def chainFailA : ConvChain :=
  { stageA := fun _ _ => Except.error longMsg
    stageB := fun _ _ _ _ => Except.error "not consulted" }

/-- A conversion chain that succeeds and returns a fenced block. -/
def chainOk : ConvChain :=
  { stageA := fun _ _ => Except.ok "STRUCT"
    stageB := fun st _ _ _ => if st == "STRUCT" then Except.ok "```javascript\nconst x = 1;\n```" else Except.error "bad structure" }

/-- A record with no methods, ineligible for conversion. -/
def emptyRec : UnitRecord :=
  { name := "Empty", description := "desc", methods := [], dependencies := [],
    linesOfCode := 5, filePath := "/src/Empty.java", typ := "Model" }

/-- A record with one method, eligible for conversion. -/
def goodRec : UnitRecord :=
  { name := "Good", description := "desc",
    methods := [{ name := "m", signature := "void m()", description := "d", complexity := "Low" }],
    dependencies := [], linesOfCode := 9, filePath := "/src/Good.java", typ := "Controller" }

/-- A conversion environment whose reads succeed for goodRec and whose
writes succeed. -/
def cenvOk : ConvEnv :=
  { chain := chainOk
    readFile := fun p => if p == "/src/Good.java" then Except.ok "class Good" else Except.error "FileNotFoundError"
    writeFile := fun _ _ => Except.ok ()
    outputDir := "./output" }

/-- Credentials: only the Google key set. -/
def envGoogle : Env :=
  { googleKey := some "gk", geminiKey := none, anthropicKey := none, openaiKey := none }

/-- Credentials: only the Anthropic key set. -/
def envAnthOnly : Env :=
  { googleKey := none, geminiKey := none, anthropicKey := some "ak", openaiKey := none }

/-- Credentials: no key set. -/
def envNone : Env :=
  { googleKey := none, geminiKey := none, anthropicKey := none, openaiKey := none }

/-- Credentials: Google and Anthropic keys both set. -/
def envBoth : Env :=
  { googleKey := some "gk", geminiKey := none, anthropicKey := some "ak", openaiKey := none }

/-- Constructors that all succeed. -/
def ctorsOk : Ctors :=
  { gemini := Except.ok (), anthropic := Except.ok (), openai := Except.ok () }

/-- Constructors where the Gemini client raises a generic exception and
the other two succeed. -/
def ctorsGemBoom : Ctors :=
  { gemini := Except.error (PyExc.otherError "boom"), anthropic := Except.ok (), openai := Except.ok () }

/-- Constructors where the Gemini import raises ImportError. -/
def ctorsGemImport : Ctors :=
  { gemini := Except.error (PyExc.importError "No module named langchain_google_genai"),
    anthropic := Except.ok (), openai := Except.ok () }

/- ===================== statement helpers ===================== -/

/-- The methods contributed by one chunk of the chunked path. -/
def chunkMethodsOf (o : AnalysisOracle) (c : String) : List MethodRec :=
  match chunkParse o c with
  | none => []
  | some cd => cd.methods.getD []

/-- The dependencies contributed by one chunk of the chunked path. -/
def chunkDepsOf (o : AnalysisOracle) (c : String) : List String :=
  match chunkParse o c with
  | none => []
  | some cd => cd.dependencies.getD []

/-- The descriptions contributed by one chunk of the chunked path. -/
def chunkDescsOf (o : AnalysisOracle) (c : String) : List String :=
  match chunkParse o c with
  | none => []
  | some cd => (cd.description.map (fun d => [d])).getD []

/-- The manifest entry built for a record by the conversion loop. -/
def entryFor (env : ConvEnv) (m : UnitRecord) : ConvEntry :=
  ConvEntry.mk m.name m.typ (env.outputDir ++ "/converted/" ++ m.name ++ ".js")

/- ===================== helper lemmas ===================== -/

theorem bigA_length (n : Nat) : (bigA n).length = n := by
  show (List.replicate n 'a').length = n
  exact List.length_replicate ..

theorem isPrefixOf_append_self (l r : List Char) : l.isPrefixOf (l ++ r) = true :=
  List.isPrefixOf_iff_prefix.mpr (List.prefix_append l r)

theorem mem_insertDep (l : List String) (x y : String) :
    y ∈ insertDep l x ↔ y ∈ l ∨ y = x := by
  unfold insertDep
  split
  next hx =>
    constructor
    · exact Or.inl
    · rintro (h | rfl)
      · exact h
      · exact hx
  next hx => simp

theorem mem_insertDeps (xs l : List String) (y : String) :
    y ∈ insertDeps l xs ↔ y ∈ l ∨ y ∈ xs := by
  induction xs generalizing l with
  | nil => simp [insertDeps]
  | cons x xs ih =>
    show y ∈ insertDeps (insertDep l x) xs ↔ _
    rw [ih, mem_insertDep]
    simp [List.mem_cons]
    tauto

theorem foldl_chunkStep_methods (o : AnalysisOracle) (cs : List String) (acc : ChunkAcc) :
    (cs.foldl (chunkStep o) acc).methods = acc.methods ++ concatMap (chunkMethodsOf o) cs := by
  induction cs generalizing acc with
  | nil => simp [concatMap]
  | cons c cs ih =>
    rw [List.foldl_cons, ih]
    cases h : chunkParse o c with
    | none => simp [chunkStep, h, chunkMethodsOf, concatMap]
    | some cd => simp [chunkStep, h, chunkMethodsOf, concatMap, accumulate]

theorem foldl_chunkStep_descs (o : AnalysisOracle) (cs : List String) (acc : ChunkAcc) :
    (cs.foldl (chunkStep o) acc).descs = acc.descs ++ concatMap (chunkDescsOf o) cs := by
  induction cs generalizing acc with
  | nil => simp [concatMap]
  | cons c cs ih =>
    rw [List.foldl_cons, ih]
    cases h : chunkParse o c with
    | none => simp [chunkStep, h, chunkDescsOf, concatMap]
    | some cd => simp [chunkStep, h, chunkDescsOf, concatMap, accumulate]

theorem foldl_chunkStep_deps (o : AnalysisOracle) (cs : List String) (acc : ChunkAcc) (y : String) :
    y ∈ (cs.foldl (chunkStep o) acc).deps ↔ y ∈ acc.deps ∨ ∃ c ∈ cs, y ∈ chunkDepsOf o c := by
  induction cs generalizing acc with
  | nil => simp
  | cons c cs ih =>
    rw [List.foldl_cons, ih]
    cases h : chunkParse o c with
    | none =>
      have hs : chunkStep o acc c = acc := by simp [chunkStep, h]
      have hd : chunkDepsOf o c = [] := by simp [chunkDepsOf, h]
      rw [hs]
      constructor
      · rintro (hy | ⟨c', hc', hyc⟩)
        · exact Or.inl hy
        · exact Or.inr ⟨c', List.mem_cons_of_mem _ hc', hyc⟩
      · rintro (hy | ⟨c', hc', hyc⟩)
        · exact Or.inl hy
        · rcases List.mem_cons.mp hc' with rfl | hc''
          · rw [hd] at hyc; cases hyc
          · exact Or.inr ⟨c', hc'', hyc⟩
    | some cd =>
      have hs : chunkStep o acc c = accumulate acc cd := by simp [chunkStep, h]
      have hd : chunkDepsOf o c = cd.dependencies.getD [] := by simp [chunkDepsOf, h]
      rw [hs]
      have hacc : ∀ z, z ∈ (accumulate acc cd).deps ↔ z ∈ acc.deps ∨ z ∈ cd.dependencies.getD [] := by
        intro z
        exact mem_insertDeps ..
      constructor
      · rintro (hy | ⟨c', hc', hyc⟩)
        · rcases (hacc y).mp hy with h1 | h2
          · exact Or.inl h1
          · exact Or.inr ⟨c, List.mem_cons_self .., by rw [hd]; exact h2⟩
        · exact Or.inr ⟨c', List.mem_cons_of_mem _ hc', hyc⟩
      · rintro (hy | ⟨c', hc', hyc⟩)
        · exact Or.inl ((hacc y).mpr (Or.inl hy))
        · rcases List.mem_cons.mp hc' with rfl | hc''
          · rw [hd] at hyc
            exact Or.inl ((hacc y).mpr (Or.inr hyc))
          · exact Or.inr ⟨c', hc'', hyc⟩

theorem foldl_chunkStep_congr (o o' : AnalysisOracle) (cs : List String) (acc : ChunkAcc)
    (hj : o'.jloads = o.jloads)
    (hl : ∀ c ∈ cs, o'.llmInvoke (chunkPrompt c) = o.llmInvoke (chunkPrompt c)) :
    cs.foldl (chunkStep o') acc = cs.foldl (chunkStep o) acc := by
  induction cs generalizing acc with
  | nil => rfl
  | cons c cs ih =>
    have hc : chunkStep o' acc c = chunkStep o acc c := by
      unfold chunkStep chunkParse
      rw [hl c (List.mem_cons_self ..), hj]
    rw [List.foldl_cons, List.foldl_cons, hc]
    exact ih _ (fun x hx => hl x (List.mem_cons_of_mem _ hx))

theorem foldl_chunkStep_none (o : AnalysisOracle) (cs : List String) (acc : ChunkAcc)
    (h : ∀ c ∈ cs, chunkParse o c = none) :
    cs.foldl (chunkStep o) acc = acc := by
  induction cs generalizing acc with
  | nil => rfl
  | cons c cs ih =>
    rw [List.foldl_cons]
    have hs : chunkStep o acc c = acc := by simp [chunkStep, h c (List.mem_cons_self ..)]
    rw [hs]
    exact ih _ (fun x hx => h x (List.mem_cons_of_mem _ hx))

theorem splitOnceSub_eq (sub : List Char) (l b a : List Char)
    (h : splitOnceSub sub l = some (b, a)) : l = b ++ sub ++ a := by
  induction l generalizing b a with
  | nil =>
    unfold splitOnceSub at h
    by_cases he : sub.isEmpty
    · rw [if_pos he] at h
      simp at h
      obtain ⟨rfl, rfl⟩ := h
      simp [List.isEmpty_iff.mp he]
    · rw [if_neg he] at h
      cases h
  | cons c cs ih =>
    unfold splitOnceSub at h
    by_cases hp : sub.isPrefixOf (c :: cs)
    · rw [if_pos hp] at h
      simp at h
      obtain ⟨rfl, rfl⟩ := h
      obtain ⟨t, ht⟩ := List.isPrefixOf_iff_prefix.mp hp
      rw [← ht, List.drop_left, List.nil_append]
    · rw [if_neg hp] at h
      cases hin : splitOnceSub sub cs with
      | none => rw [hin] at h; cases h
      | some pr =>
        obtain ⟨b', a'⟩ := pr
        rw [hin] at h
        simp at h
        obtain ⟨rfl, rfl⟩ := h
        rw [List.cons_append, List.cons_append, ← ih b' a' hin]

theorem splitOnceSub_first (a r : List Char) (ha : ∀ ch ∈ a, ch ≠ '\x60') :
    splitOnceSub fenceL (a ++ (fenceL ++ r)) = some (a, r) := by
  induction a with
  | nil =>
    rw [List.nil_append]
    show splitOnceSub fenceL ('\x60' :: '\x60' :: '\x60' :: r) = some ([], r)
    simp [splitOnceSub, fenceL, List.isPrefixOf, List.drop]
  | cons c a ih =>
    have hc : c ≠ '\x60' := ha c (List.mem_cons_self ..)
    have hb : ('\x60' == c) = false := beq_eq_false_iff_ne.mpr (Ne.symm hc)
    have hnp : fenceL.isPrefixOf (c :: (a ++ (fenceL ++ r))) = false := by
      simp [fenceL, List.isPrefixOf, hb]
    rw [List.cons_append]
    unfold splitOnceSub
    rw [hnp]
    simp only [Bool.false_eq_true, if_false]
    rw [ih (fun x hx => ha x (List.mem_cons_of_mem _ hx))]

theorem convertStep_shape (env : ConvEnv) (acc : List ConvEntry × List (String × String))
    (m : UnitRecord) :
    (convertStep env acc m = acc)
    ∨ (m.methods ≠ []
        ∧ (convertStep env acc m).2 = acc.2 ++ [(m.name, m.typ)]
        ∧ ((convertStep env acc m).1 = acc.1 ∨ (convertStep env acc m).1 = acc.1 ++ [entryFor env m])) := by
  by_cases hm : m.methods.isEmpty
  · left
    simp [convertStep, hm]
  · have hne : m.methods ≠ [] := by
      intro h
      rw [h] at hm
      exact hm rfl
    cases hr : env.readFile m.filePath with
    | error e =>
      left
      simp [convertStep, hm, hr]
    | ok code =>
      right
      refine ⟨hne, ?_⟩
      cases hw : env.writeFile (env.outputDir ++ "/converted/" ++ m.name ++ ".js") (convert env.chain code m.typ) with
      | error e => simp [convertStep, hm, hr, hw, entryFor]
      | ok u => simp [convertStep, hm, hr, hw, entryFor]

theorem convertFold_filter (env : ConvEnv) (records : List UnitRecord) :
    ∀ acc, records.foldl (convertStep env) acc
      = (records.filter (fun m => !m.methods.isEmpty)).foldl (convertStep env) acc := by
  induction records with
  | nil => intro acc; rfl
  | cons m ms ih =>
    intro acc
    by_cases hm : m.methods.isEmpty
    · have hstep : convertStep env acc m = acc := by simp [convertStep, hm]
      rw [List.foldl_cons, hstep, List.filter_cons]
      simp only [hm, Bool.not_true, if_false]
      exact ih acc
    · rw [List.foldl_cons, List.filter_cons]
      have hmf : m.methods.isEmpty = false := by
        simpa using hm
      simp only [hmf, Bool.not_false, if_true]
      rw [List.foldl_cons]
      exact ih (convertStep env acc m)

theorem convertFold_sources (env : ConvEnv) (records : List UnitRecord) :
    ∀ acc,
      (∀ e ∈ (records.foldl (convertStep env) acc).1,
        e ∈ acc.1 ∨ ∃ m ∈ records, m.methods ≠ [] ∧ e = entryFor env m)
      ∧ (∀ p ∈ (records.foldl (convertStep env) acc).2,
        p ∈ acc.2 ∨ ∃ m ∈ records, m.methods ≠ [] ∧ p = (m.name, m.typ)) := by
  induction records with
  | nil =>
    intro acc
    exact ⟨fun e he => Or.inl he, fun p hp => Or.inl hp⟩
  | cons m ms ih =>
    intro acc
    rw [List.foldl_cons]
    have step := convertStep_shape env acc m
    constructor
    · intro e he
      rcases (ih (convertStep env acc m)).1 e he with hbase | ⟨m', hm', hne', hform⟩
      · rcases step with hid | ⟨hne, _, h1 | h1⟩
        · rw [hid] at hbase
          exact Or.inl hbase
        · rw [h1] at hbase
          exact Or.inl hbase
        · rw [h1] at hbase
          rcases List.mem_append.mp hbase with h | h
          · exact Or.inl h
          · have : e = entryFor env m := List.mem_singleton.mp h
            exact Or.inr ⟨m, List.mem_cons_self .., hne, this⟩
      · exact Or.inr ⟨m', List.mem_cons_of_mem _ hm', hne', hform⟩
    · intro p hp
      rcases (ih (convertStep env acc m)).2 p hp with hbase | ⟨m', hm', hne', hform⟩
      · rcases step with hid | ⟨hne, h2, _⟩
        · rw [hid] at hbase
          exact Or.inl hbase
        · rw [h2] at hbase
          rcases List.mem_append.mp hbase with h | h
          · exact Or.inl h
          · have : p = (m.name, m.typ) := List.mem_singleton.mp h
            exact Or.inr ⟨m, List.mem_cons_self .., hne, this⟩
      · exact Or.inr ⟨m', List.mem_cons_of_mem _ hm', hne', hform⟩

theorem splitOnceSub_complete (sub : List Char) : ∀ (l x y : List Char),
    l = x ++ sub ++ y → (splitOnceSub sub l).isSome = true := by
  intro l x
  induction x generalizing l with
  | nil =>
    intro y hl
    rw [List.nil_append] at hl
    subst hl
    cases hs : sub with
    | nil => cases y <;> simp [splitOnceSub, List.isPrefixOf]
    | cons s ss =>
      rw [List.cons_append]
      unfold splitOnceSub
      have hp : (s :: ss).isPrefixOf (s :: (ss ++ y)) = true := by
        have h := isPrefixOf_append_self (s :: ss) y
        rwa [List.cons_append] at h
      rw [hp]
      simp
  | cons c x ih =>
    intro y hl
    rw [List.cons_append, List.cons_append] at hl
    subst hl
    unfold splitOnceSub
    by_cases hp : sub.isPrefixOf (c :: (x ++ sub ++ y))
    · rw [if_pos hp]
      simp
    · rw [if_neg hp]
      have := ih (x ++ sub ++ y) y rfl
      cases hin : splitOnceSub sub (x ++ sub ++ y) with
      | none => rw [hin] at this; cases this
      | some pr => obtain ⟨b, a⟩ := pr; simp

theorem cleanupChars_some_some (l b1 r1 b2 r2 : List Char)
    (h1 : splitOnceSub fenceL l = some (b1, r1))
    (h2 : splitOnceSub fenceL r1 = some (b2, r2)) :
    cleanupChars l = pyStrip (if javTag.isPrefixOf b2 then b2.drop javTag.length else b2) := by
  unfold cleanupChars
  simp only [h1, h2]

theorem analyze_chunk_eq (o : AnalysisOracle) (f : FileInfo)
    (hbig : f.content.length > 10000) :
    analyze_file o f = _analyze_large_file o f := by
  unfold analyze_file
  rw [if_pos hbig]

theorem analyze_whole_chain_error (o : AnalysisOracle) (f : FileInfo) (e : String)
    (hle : ¬ f.content.length > 10000) (he : o.chainInvoke f = Except.error e) :
    analyze_file o f = degradedRecord f := by
  unfold analyze_file
  rw [if_neg hle, he]

theorem analyze_whole_json_error (o : AnalysisOracle) (f : FileInfo) (text e : String)
    (hle : ¬ f.content.length > 10000) (hc : o.chainInvoke f = Except.ok text)
    (hj : o.jsonToRaw text = Except.error e) :
    analyze_file o f = degradedRecord f := by
  unfold analyze_file
  rw [if_neg hle]
  simp only [hc, hj]

theorem analyze_whole_invalid (o : AnalysisOracle) (f : FileInfo) (text : String) (raw : ModuleRec)
    (hle : ¬ f.content.length > 10000) (hc : o.chainInvoke f = Except.ok text)
    (hj : o.jsonToRaw text = Except.ok raw)
    (hall : raw.methods.all (fun mm => isValidComplexity mm.complexity) = false) :
    analyze_file o f = degradedRecord f := by
  unfold analyze_file
  rw [if_neg hle]
  simp only [hc, hj, pydanticValidate, hall]
  simp

theorem analyze_whole_success (o : AnalysisOracle) (f : FileInfo) (text : String) (raw : ModuleRec)
    (hle : ¬ f.content.length > 10000) (hc : o.chainInvoke f = Except.ok text)
    (hj : o.jsonToRaw text = Except.ok raw)
    (hall : raw.methods.all (fun mm => isValidComplexity mm.complexity) = true) :
    analyze_file o f =
      UnitRecord.mk ⟨stripDotJava f.name.data⟩ raw.description raw.methods raw.dependencies
        f.loc f.path f.typ := by
  unfold analyze_file
  rw [if_neg hle]
  simp only [hc, hj, pydanticValidate, hall]
  simp

/- ===================== claims ===================== -/

set_option maxRecDepth 16000

/-- C1: amended.  On the whole-content path every method of the returned
UnitRecord satisfies the complexity constraint, and a provider response
decoding to any method with a complexity outside the set Low, Medium,
High is rejected: the degraded record is returned instead.  On the
chunked path (content over the threshold) no complexity validation is
applied, as the counterexample shows, so the original claim fails
there. -/
theorem c1_whole_path_complexity (o : AnalysisOracle) (f : FileInfo)
    (h : f.content.length ≤ 10000) :
    (∀ m ∈ (analyze_file o f).methods, isValidComplexity m.complexity = true)
    ∧ (∀ text raw, o.chainInvoke f = Except.ok text → o.jsonToRaw text = Except.ok raw →
        (∃ m ∈ raw.methods, isValidComplexity m.complexity = false) →
        analyze_file o f = degradedRecord f) := by
  have hnot : ¬ f.content.length > 10000 := by omega
  constructor
  · intro m hm
    by_cases hc : ∃ text, o.chainInvoke f = Except.ok text
    · obtain ⟨text, hct⟩ := hc
      by_cases hj : ∃ raw, o.jsonToRaw text = Except.ok raw
      · obtain ⟨raw, hjr⟩ := hj
        cases hb : raw.methods.all (fun mm => isValidComplexity mm.complexity) with
        | true =>
          rw [analyze_whole_success o f text raw hnot hct hjr hb] at hm
          exact List.all_eq_true.mp hb m hm
        | false =>
          rw [analyze_whole_invalid o f text raw hnot hct hjr hb] at hm
          simp [degradedRecord] at hm
      · have hje : ∃ e, o.jsonToRaw text = Except.error e := by
          cases hx : o.jsonToRaw text with
          | error e => exact ⟨e, rfl⟩
          | ok raw => exact absurd ⟨raw, hx⟩ hj
        obtain ⟨e, hje⟩ := hje
        rw [analyze_whole_json_error o f text e hnot hct hje] at hm
        simp [degradedRecord] at hm
    · have hce : ∃ e, o.chainInvoke f = Except.error e := by
        cases hx : o.chainInvoke f with
        | error e => exact ⟨e, rfl⟩
        | ok t => exact absurd ⟨t, hx⟩ hc
      obtain ⟨e, hce⟩ := hce
      rw [analyze_whole_chain_error o f e hnot hce] at hm
      simp [degradedRecord] at hm
  · rintro text raw hct hjr ⟨m, hmem, hbad⟩
    have hallf : raw.methods.all (fun mm => isValidComplexity mm.complexity) = false := by
      rw [Bool.eq_false_iff]
      intro htrue
      have hv := List.all_eq_true.mp htrue m hmem
      rw [hbad] at hv
      cases hv
    exact analyze_whole_invalid o f text raw hnot hct hjr hallf

/-- C1 witness: at a concrete small unit, a successful whole-content
analysis has only valid complexities, and a response carrying the
invalid complexity Extreme produces exactly the degraded record. -/
theorem c1_whole_path_complexity_witness :
    (∀ m ∈ (analyze_file oracleWholeGood smallUnit).methods, isValidComplexity m.complexity = true)
    ∧ analyze_file oracleWholeBad smallUnit = degradedRecord smallUnit := by
  constructor
  · exact (c1_whole_path_complexity oracleWholeGood smallUnit (by decide)).1
  · exact (c1_whole_path_complexity oracleWholeBad smallUnit (by decide)).2 "RESPONSE" badModule
      rfl rfl
      ⟨MethodRec.mk "run" "void run()" "runs" "Extreme", by decide, by decide⟩

/-- C1 counterexample: an oversized unit whose single chunk response
carries a method with complexity VeryHigh yields a UnitRecord containing
that method unchanged, not the degraded record: the chunked path applies
no complexity validation, contradicting the claim that the invariant
holds on both paths. -/
theorem c1_chunk_complexity_counterexample :
    bigUnit.content.length > 10000
    ∧ (analyze_file oracleBadComplexity bigUnit).methods = [badMethod]
    ∧ isValidComplexity badMethod.complexity = false
    ∧ analyze_file oracleBadComplexity bigUnit ≠ degradedRecord bigUnit := by
  have hlen : bigUnit.content.length = 10001 := bigA_length 10001
  have hbig : bigUnit.content.length > 10000 := by omega
  have hch := analyze_chunk_eq oracleBadComplexity bigUnit hbig
  refine ⟨hbig, ?_, by decide, ?_⟩
  · rw [hch]
    decide
  · rw [hch]
    intro heq
    have hd : (_analyze_large_file oracleBadComplexity bigUnit).description
        = "Batch processing helper" := by decide
    rw [heq] at hd
    exact absurd hd (by decide)

/-- C2: amended.  For every unit on the whole-content path (content
length at most the threshold), any provider exception, parse failure or
validation failure makes analyze_file return exactly the degraded
record: description Analysis unavailable, empty methods and
dependencies, the unit name with .java stripped, and path, category and
line count preserved; no retry occurs (the single chain outcome is
consulted once).  On the chunked path provider failures are absorbed
per chunk and the aggregated record with the placeholder description is
returned instead of the degraded record, as the counterexample shows;
in every modeled case analyze_file returns a record rather than
raising. -/
theorem c2_whole_path_degradation (o : AnalysisOracle) (f : FileInfo)
    (h : f.content.length ≤ 10000) :
    (∀ e, o.chainInvoke f = Except.error e → analyze_file o f = degradedRecord f)
    ∧ (∀ text e, o.chainInvoke f = Except.ok text → o.jsonToRaw text = Except.error e →
        analyze_file o f = degradedRecord f)
    ∧ (∀ text raw e, o.chainInvoke f = Except.ok text → o.jsonToRaw text = Except.ok raw →
        pydanticValidate raw = Except.error e → analyze_file o f = degradedRecord f)
    ∧ degradedRecord f
        = UnitRecord.mk ⟨stripDotJava f.name.data⟩ "Analysis unavailable" [] [] f.loc f.path f.typ := by
  have hnot : ¬ f.content.length > 10000 := by omega
  refine ⟨?_, ?_, ?_, rfl⟩
  · intro e he
    exact analyze_whole_chain_error o f e hnot he
  · intro text e hc hj
    exact analyze_whole_json_error o f text e hnot hc hj
  · intro text raw e hc hj hv
    have hallf : raw.methods.all (fun mm => isValidComplexity mm.complexity) = false := by
      cases hb : raw.methods.all (fun mm => isValidComplexity mm.complexity) with
      | false => rfl
      | true =>
        unfold pydanticValidate at hv
        rw [hb] at hv
        simp at hv
    exact analyze_whole_invalid o f text raw hnot hc hj hallf

/-- C2 witness: a small unit with a raising provider yields exactly the
degraded record. -/
theorem c2_whole_path_degradation_witness :
    analyze_file oracleAllFail smallUnit = degradedRecord smallUnit :=
  (c2_whole_path_degradation oracleAllFail smallUnit (by decide)).1
    "ConnectionError: provider unreachable" rfl

/-- C2 counterexample: for an oversized unit whose provider raises on
every call, analyze_file returns the chunk-path placeholder record with
description Large module with multiple components, not the degraded
record with description Analysis unavailable that the claim promises
for every unit whose provider call raises. -/
theorem c2_chunked_not_degraded_counterexample :
    bigUnit.content.length > 10000
    ∧ (analyze_file oracleAllFail bigUnit).description = "Large module with multiple components"
    ∧ analyze_file oracleAllFail bigUnit ≠ degradedRecord bigUnit := by
  have hlen : bigUnit.content.length = 10001 := bigA_length 10001
  have hbig : bigUnit.content.length > 10000 := by omega
  have hch := analyze_chunk_eq oracleAllFail bigUnit hbig
  have hd : (_analyze_large_file oracleAllFail bigUnit).description
      = "Large module with multiple components" := by decide
  refine ⟨hbig, by rw [hch]; exact hd, ?_⟩
  rw [hch]
  intro heq
  rw [heq] at hd
  exact absurd hd (by decide)

/-- C3: amended.  For every oversized unit, at most five chunks are
submitted to the provider regardless of how many the splitter produced
(the result depends on the provider only at the prompts of the first
five chunks); each chunk response is parsed by taking the span from the
first open brace to the last close brace of the response (the greedy
regex span, not the first balanced span claimed) and decoding it with
json.loads, a chunk failing anywhere being silently skipped; the record
concatenates chunk method lists in chunk order without deduplication,
unions the dependency sets, joins the collected descriptions with a
space, and uses the fixed placeholder when no chunk yielded one. -/
theorem c3_chunked_aggregation (o : AnalysisOracle) (f : FileInfo)
    (hbig : f.content.length > 10000) :
    ((o.split f.content).take 5).length ≤ 5
    ∧ (analyze_file o f).methods
        = concatMap (chunkMethodsOf o) ((o.split f.content).take 5)
    ∧ (∀ d, d ∈ (analyze_file o f).dependencies
        ↔ ∃ c ∈ (o.split f.content).take 5, d ∈ chunkDepsOf o c)
    ∧ (analyze_file o f).description
        = (if (concatMap (chunkDescsOf o) ((o.split f.content).take 5)).isEmpty
           then "Large module with multiple components"
           else String.intercalate " " (concatMap (chunkDescsOf o) ((o.split f.content).take 5)))
    ∧ (∀ o' : AnalysisOracle, o'.split = o.split → o'.jloads = o.jloads →
        (∀ c ∈ (o.split f.content).take 5,
          o'.llmInvoke (chunkPrompt c) = o.llmInvoke (chunkPrompt c)) →
        analyze_file o' f = analyze_file o f) := by
  have hch := analyze_chunk_eq o f hbig
  refine ⟨List.length_take_le .., ?_, ?_, ?_, ?_⟩
  · rw [hch]
    show ((((o.split f.content).take 5).foldl (chunkStep o) ⟨[], [], []⟩).methods : List MethodRec) = _
    rw [foldl_chunkStep_methods]
    rfl
  · intro d
    rw [hch]
    show d ∈ ((((o.split f.content).take 5).foldl (chunkStep o) ⟨[], [], []⟩).deps : List String) ↔ _
    rw [foldl_chunkStep_deps]
    simp
  · rw [hch]
    show (if (((o.split f.content).take 5).foldl (chunkStep o) ⟨[], [], []⟩).descs.isEmpty
          then "Large module with multiple components"
          else String.intercalate " "
            ((((o.split f.content).take 5).foldl (chunkStep o) ⟨[], [], []⟩).descs)) = _
    rw [foldl_chunkStep_descs]
    rfl
  · intro o' hs hj hl
    have hbig' : analyze_file o' f = _analyze_large_file o' f := analyze_chunk_eq o' f hbig
    rw [hbig', hch]
    unfold _analyze_large_file
    dsimp only
    rw [hs, foldl_chunkStep_congr o o' ((o.split f.content).take 5) ⟨[], [], []⟩ hj hl]

/-- C3 witness: the aggregation theorem applied at the concrete
oversized unit with the bad-complexity chunk oracle. -/
theorem c3_chunked_aggregation_witness :
    ((oracleBadComplexity.split bigUnit.content).take 5).length ≤ 5
    ∧ (analyze_file oracleBadComplexity bigUnit).methods
        = concatMap (chunkMethodsOf oracleBadComplexity)
            ((oracleBadComplexity.split bigUnit.content).take 5) := by
  have h := c3_chunked_aggregation oracleBadComplexity bigUnit
    (by rw [show bigUnit.content.length = 10001 from bigA_length 10001]; omega)
  exact ⟨h.1, h.2.1⟩

/-- C3 counterexample: a chunk response holding two JSON objects.  The
span the code hands to json.loads is the greedy first-open-brace to
last-close-brace span (the whole response), which is not valid JSON, so
the chunk is skipped and the record falls back to the placeholder; the
first balanced span promised by the claim is the first object, which
parses and would have yielded the description alpha. -/
theorem c3_greedy_span_counterexample :
    grabSpan respTwoObjs = some respTwoObjs
    ∧ firstBalancedSpan respTwoObjs = some balSpan
    ∧ jloadsTwoObjs balSpan = some (ChunkData.mk none none (some "alpha"))
    ∧ jloadsTwoObjs respTwoObjs = none
    ∧ bigUnit.content.length > 10000
    ∧ (analyze_file oracleTwoObjs bigUnit).description = "Large module with multiple components"
    ∧ (analyze_file oracleTwoObjs bigUnit).methods = [] := by
  have hlen : bigUnit.content.length = 10001 := bigA_length 10001
  have hbig : bigUnit.content.length > 10000 := by omega
  have hch := analyze_chunk_eq oracleTwoObjs bigUnit hbig
  refine ⟨by decide, by decide, by decide, by decide, hbig, ?_, ?_⟩
  · rw [hch]
    decide
  · rw [hch]
    decide

/-- C4: for every unit, analyze_file takes the chunked path exactly when
the content length strictly exceeds 10000 characters.  Observed through
an always-failing provider: at or below the threshold the whole-content
path yields the degraded record, strictly above it the chunked path
yields the placeholder record, which differs from the degraded one. -/
theorem c4_threshold_boundary (o : AnalysisOracle) (f : FileInfo)
    (hA : ∃ e, o.chainInvoke f = Except.error e)
    (hB : ∀ p, ∃ e, o.llmInvoke p = Except.error e) :
    (f.content.length ≤ 10000 → analyze_file o f = degradedRecord f)
    ∧ (f.content.length > 10000 →
        (analyze_file o f).description = "Large module with multiple components"
        ∧ analyze_file o f ≠ degradedRecord f) := by
  constructor
  · intro hle
    obtain ⟨e, he⟩ := hA
    exact analyze_whole_chain_error o f e (by omega) he
  · intro hgt
    have hparse : ∀ c, chunkParse o c = none := by
      intro c
      obtain ⟨e, he⟩ := hB (chunkPrompt c)
      unfold chunkParse
      rw [he]
    have hch := analyze_chunk_eq o f hgt
    have hdesc : (analyze_file o f).description = "Large module with multiple components" := by
      rw [hch]
      show (if (((o.split f.content).take 5).foldl (chunkStep o) ⟨[], [], []⟩).descs.isEmpty
            then "Large module with multiple components"
            else String.intercalate " "
              ((((o.split f.content).take 5).foldl (chunkStep o) ⟨[], [], []⟩).descs)) = _
      rw [foldl_chunkStep_none o _ _ (fun c _ => hparse c)]
      rfl
    refine ⟨hdesc, ?_⟩
    intro heq
    rw [heq] at hdesc
    have hlit : ("Analysis unavailable" : String) = "Large module with multiple components" := hdesc
    exact absurd hlit (by decide)

/-- C4 witness: the boundary cases.  A unit of exactly 10000 characters
is analyzed whole (degraded record under a failing provider) and a unit
of 10001 characters is chunked (placeholder record). -/
theorem c4_threshold_boundary_witness :
    analyze_file oracleAllFail edgeUnit = degradedRecord edgeUnit
    ∧ (analyze_file oracleAllFail bigUnit).description = "Large module with multiple components" := by
  have h1 := c4_threshold_boundary oracleAllFail edgeUnit
    ⟨"ConnectionError: provider unreachable", rfl⟩
    (fun p => ⟨"ConnectionError: provider unreachable", rfl⟩)
  have h2 := c4_threshold_boundary oracleAllFail bigUnit
    ⟨"ConnectionError: provider unreachable", rfl⟩
    (fun p => ⟨"ConnectionError: provider unreachable", rfl⟩)
  refine ⟨h1.1 ?_, (h2.2 ?_).1⟩
  · rw [show edgeUnit.content.length = 10000 from bigA_length 10000]
  · rw [show bigUnit.content.length = 10001 from bigA_length 10001]
    omega

/-- C5: the conversion loop never produces a manifest entry for, and
never invokes the converter on, a record with an empty methods list:
the loop behaves identically on the records filtered to those with
methods, every manifest entry originates from a record with a non-empty
methods list, and every converter invocation does too.  The skip guard
lives in the loop of main, not inside convert, which receives only the
source text and the category. -/
theorem c5_skip_empty_methods (env : ConvEnv) (records : List UnitRecord) :
    records.foldl (convertStep env) ([], [])
      = (records.filter (fun m => !m.methods.isEmpty)).foldl (convertStep env) ([], [])
    ∧ (∀ e ∈ convertPhase env records,
        ∃ m ∈ records, m.methods ≠ [] ∧ e = entryFor env m)
    ∧ (∀ p ∈ convertCalls env records,
        ∃ m ∈ records, m.methods ≠ [] ∧ p = (m.name, m.typ)) := by
  refine ⟨convertFold_filter env records ([], []), ?_, ?_⟩
  · intro e he
    rcases (convertFold_sources env records ([], [])).1 e he with h | h
    · exact absurd h (List.not_mem_nil e)
    · exact h
  · intro p hp
    rcases (convertFold_sources env records ([], [])).2 p hp with h | h
    · exact absurd h (List.not_mem_nil p)
    · exact h

/-- C5 witness: on a concrete record list containing one record with
no methods and one with a method, the produced manifest entry is traced
back to the record with the non-empty methods list. -/
theorem c5_skip_empty_methods_witness :
    ConvEntry.mk "Good" "Controller" "./output/converted/Good.js"
      ∈ convertPhase cenvOk [emptyRec, goodRec]
    ∧ (∃ m ∈ [emptyRec, goodRec], m.methods ≠ []
        ∧ ConvEntry.mk "Good" "Controller" "./output/converted/Good.js" = entryFor cenvOk m) := by
  have hmem : ConvEntry.mk "Good" "Controller" "./output/converted/Good.js"
      ∈ convertPhase cenvOk [emptyRec, goodRec] := by decide
  exact ⟨hmem, (c5_skip_empty_methods cenvOk [emptyRec, goodRec]).2.1 _ hmem⟩

/-- C6: the categorizer is total into the closed nine-element category
set and equals the first-match evaluation of the ordered rule list of
the spec; for every content string a file named UserController.java
classifies as Controller, and three further conflicting pairs resolve
by rule order: a Repository-named file with a Service marker is a
Service (Service rule first), a Repository-named file with an Entity
marker is a DAO (DAO rule before Model), and a file whose name contains
both Config and Model is a Model (Model rule before Configuration). -/
theorem c6_categorize_priority (n c : String) :
    _categorize n c = categorizeSpec n c
    ∧ _categorize n c ∈ categorySet
    ∧ (∀ content, _categorize "UserController.java" content = "Controller")
    ∧ _categorize "OrderRepository.java" "@Service" = "Service"
    ∧ _categorize "DataRepository.java" "@Entity" = "DAO"
    ∧ _categorize "AppConfigModel.java" "@Configuration" = "Model" := by
  refine ⟨rfl, ?_, ?_, by decide, by decide, by decide⟩
  · unfold _categorize
    repeat' split
    all_goals decide
  · intro content
    have hcn : pyIn "Controller" "UserController.java" = true := by decide
    unfold _categorize
    simp [hcn]

/-- C7: amended.  convert never raises in the model: an exception from
stage A or from stage B is caught at the convert boundary and turned
into the textual stub embedding the category and the full error message
(the 100-character truncation applies only to the logged warning, not
to the stub, as the counterexample shows); a successful chain run is
post-processed by the cleanup step. -/
theorem c7_convert_failure_policy (ch : ConvChain) (jc mt : String) :
    (∀ e, ch.stageA mt jc = Except.error e →
      convert ch jc mt = "// Conversion failed for " ++ mt ++ "\n// Error: " ++ e)
    ∧ (∀ s e, ch.stageA mt jc = Except.ok s →
        ch.stageB s mt jc (frameworkFor mt) = Except.error e →
        convert ch jc mt = "// Conversion failed for " ++ mt ++ "\n// Error: " ++ e)
    ∧ (∀ out, runChain ch mt jc (frameworkFor mt) = Except.ok out →
        convert ch jc mt = _cleanup_code out) := by
  refine ⟨?_, ?_, ?_⟩
  · intro e he
    unfold convert runChain
    simp only [he]
  · intro s e hs he
    unfold convert runChain
    simp only [hs, he]
  · intro out hout
    unfold convert
    simp only [hout]

/-- C7 witness: a stage A failure with a concrete 150-character message
produces exactly the stub embedding the full message. -/
theorem c7_convert_failure_policy_witness :
    convert chainFailA "class A" "Service"
      = "// Conversion failed for Service\n// Error: " ++ longMsg :=
  (c7_convert_failure_policy chainFailA "class A" "Service").1 longMsg rfl

/-- C7 counterexample: the stub embeds the untruncated 150-character
error message, so it differs from the stub the claim describes, which
embeds a truncated message; only the log line truncates to 100
characters. -/
theorem c7_full_error_counterexample :
    convert chainFailA "class A" "Service"
      = "// Conversion failed for Service\n// Error: " ++ longMsg
    ∧ longMsg.length = 150
    ∧ "// Conversion failed for Service\n// Error: " ++ longMsg
      ≠ "// Conversion failed for Service\n// Error: " ++ (⟨longMsg.data.take 100⟩ : String) := by
  refine ⟨by rfl, by decide, by decide⟩

/-- C8: amended.  When the raw response contains no complete fenced
block (no two fence delimiters), it is returned unmodified.  When a
fenced block is present, the returned text is the stripped span between
the first fence and the next fence, with a leading language tag removed
only when it is the literal word javascript: any other language tag
remains part of the returned text, as the counterexample shows. -/
theorem c8_cleanup_fenced_block :
    (∀ raw : String,
      (¬ ∃ x y z : List Char, raw.data = x ++ fenceL ++ y ++ fenceL ++ z) →
      _cleanup_code raw = raw)
    ∧ (∀ pre body post : String,
        (∀ ch ∈ pre.data, ch ≠ '\x60') → (∀ ch ∈ body.data, ch ≠ '\x60') →
        _cleanup_code (pre ++ "```javascript" ++ body ++ "```" ++ post) = ⟨pyStrip body.data⟩)
    ∧ (∀ pre body post : String,
        (∀ ch ∈ pre.data, ch ≠ '\x60') → (∀ ch ∈ body.data, ch ≠ '\x60') →
        javTag.isPrefixOf body.data = false →
        _cleanup_code (pre ++ "```" ++ body ++ "```" ++ post) = ⟨pyStrip body.data⟩) := by
  refine ⟨?_, ?_, ?_⟩
  · intro raw hno
    unfold _cleanup_code cleanupChars
    cases h1 : splitOnceSub fenceL raw.data with
    | none => rfl
    | some pr1 =>
      obtain ⟨b1, r1⟩ := pr1
      dsimp only
      cases h2 : splitOnceSub fenceL r1 with
      | none => rfl
      | some pr2 =>
        obtain ⟨b2, r2⟩ := pr2
        exfalso
        apply hno
        have e1 := splitOnceSub_eq fenceL raw.data b1 r1 h1
        have e2 := splitOnceSub_eq fenceL r1 b2 r2 h2
        refine ⟨b1, b2, r2, ?_⟩
        rw [e1, e2]
        simp [List.append_assoc]
  · intro pre body post hpre hbody
    have hjav : ∀ ch ∈ javTag, ch ≠ '\x60' := by decide
    have hjb : ∀ ch ∈ javTag ++ body.data, ch ≠ '\x60' := by
      intro ch hch
      rcases List.mem_append.mp hch with h | h
      · exact hjav ch h
      · exact hbody ch h
    have hdata : (pre ++ "```javascript" ++ body ++ "```" ++ post).data
        = pre.data ++ (fenceL ++ ((javTag ++ body.data) ++ (fenceL ++ post.data))) := by
      show pre.data ++ "```javascript".data ++ body.data ++ "```".data ++ post.data = _
      rw [show ("```javascript" : String).data = fenceL ++ javTag from by decide]
      rw [show ("```" : String).data = fenceL from by decide]
      simp [List.append_assoc]
    have h1 : splitOnceSub fenceL ((pre ++ "```javascript" ++ body ++ "```" ++ post).data)
        = some (pre.data, (javTag ++ body.data) ++ (fenceL ++ post.data)) := by
      rw [hdata]
      exact splitOnceSub_first pre.data _ hpre
    have h2 : splitOnceSub fenceL ((javTag ++ body.data) ++ (fenceL ++ post.data))
        = some (javTag ++ body.data, post.data) := splitOnceSub_first _ post.data hjb
    have hclean := cleanupChars_some_some _ _ _ _ _ h1 h2
    show (⟨cleanupChars ((pre ++ "```javascript" ++ body ++ "```" ++ post).data)⟩ : String)
        = ⟨pyStrip body.data⟩
    rw [hclean, isPrefixOf_append_self]
    simp [List.drop_left]
  · intro pre body post hpre hbody htag
    have hdata : (pre ++ "```" ++ body ++ "```" ++ post).data
        = pre.data ++ (fenceL ++ (body.data ++ (fenceL ++ post.data))) := by
      show pre.data ++ "```".data ++ body.data ++ "```".data ++ post.data = _
      rw [show ("```" : String).data = fenceL from by decide]
      simp [List.append_assoc]
    have h1 : splitOnceSub fenceL ((pre ++ "```" ++ body ++ "```" ++ post).data)
        = some (pre.data, body.data ++ (fenceL ++ post.data)) := by
      rw [hdata]
      exact splitOnceSub_first pre.data _ hpre
    have h2 : splitOnceSub fenceL (body.data ++ (fenceL ++ post.data))
        = some (body.data, post.data) := splitOnceSub_first body.data post.data hbody
    have hclean := cleanupChars_some_some _ _ _ _ _ h1 h2
    show (⟨cleanupChars ((pre ++ "```" ++ body ++ "```" ++ post).data)⟩ : String)
        = ⟨pyStrip body.data⟩
    rw [hclean, htag]
    simp

/-- C8 witness: a prose preamble around a javascript-tagged fenced
block is stripped to the trimmed body, and a response with no fence is
returned unchanged. -/
theorem c8_cleanup_fenced_block_witness :
    _cleanup_code ("Here is the code:\n" ++ "```javascript" ++ "\nconst x = 1;\n" ++ "```" ++ "\nDone.")
      = ⟨pyStrip ("\nconst x = 1;\n" : String).data⟩
    ∧ _cleanup_code "no fences at all" = "no fences at all" := by
  constructor
  · exact c8_cleanup_fenced_block.2.1 "Here is the code:\n" "\nconst x = 1;\n" "\nDone."
      (by decide) (by decide)
  · refine c8_cleanup_fenced_block.1 "no fences at all" ?_
    rintro ⟨x, y, z, hd⟩
    have hsome := splitOnceSub_complete fenceL ("no fences at all" : String).data x
      (y ++ fenceL ++ z) (by rw [hd]; simp [List.append_assoc])
    rw [show splitOnceSub fenceL ("no fences at all" : String).data = none from by decide] at hsome
    cases hsome

/-- C8 counterexample: a fenced block tagged js, a language tag other
than the literal javascript.  The claim says the trimmed body alone is
returned; the code returns the tag together with the body. -/
theorem c8_language_tag_counterexample :
    _cleanup_code "```js\nhello()\n```" = "js\nhello()"
    ∧ _cleanup_code "```js\nhello()\n```" ≠ "hello()" := by
  exact ⟨by decide, by decide⟩

/-- C9: amended.  Explicit selection attempts only the requested
provider and raises a configuration ValueError naming it on a missing
credential, a missing dependency or a constructor failure, with no
fallback.  Implicit selection attempts Gemini, Anthropic, OpenAI in
order and returns the first whose credential is present and whose
constructor succeeds when the earlier candidates lack credentials; with
only the Anthropic credential set it returns Anthropic; with no
credential at all it raises the configuration error listing the three
credential variables.  However, when an earlier candidate has a
credential and its constructor or import raises, the exception
propagates unchanged instead of falling through to the next candidate
(the fixed point the counterexample shows). -/
theorem c9_provider_selection (env : Env) (ct : Ctors) :
    (env.googleKey = none → env.geminiKey = none → env.anthropicKey.isSome = true →
      ct.anthropic = Except.ok () → init_llm env ct none = Except.ok "Anthropic")
    ∧ ((env.googleKey <|> env.geminiKey).isSome = true → ct.gemini = Except.ok () →
        init_llm env ct none = Except.ok "Gemini")
    ∧ (env.googleKey = none → env.geminiKey = none → env.anthropicKey = none →
        env.openaiKey = none → init_llm env ct none = Except.error (PyExc.valueError noKeyMsg))
    ∧ (env.googleKey = none → env.geminiKey = none →
        init_llm env ct (some "google") = Except.error (PyExc.valueError
          "Initialization failed for google: API key for specified provider \x27google\x27 not found."))
    ∧ (∀ m, (env.googleKey <|> env.geminiKey).isSome = true →
        ct.gemini = Except.error (PyExc.otherError m) →
        init_llm env ct (some "google")
          = Except.error (PyExc.valueError ("Initialization failed for google: " ++ m)))
    ∧ (∀ m, (env.googleKey <|> env.geminiKey).isSome = true →
        ct.gemini = Except.error (PyExc.importError m) →
        init_llm env ct (some "google")
          = Except.error (PyExc.valueError ("Missing dependency for google: " ++ m)))
    ∧ (∀ e, (env.googleKey <|> env.geminiKey).isSome = true →
        ct.gemini = Except.error e → init_llm env ct none = Except.error e) := by
  refine ⟨?_, ?_, ?_, ?_, ?_, ?_, ?_⟩
  · intro hg hgem ha hct
    simp [init_llm, init_gemini, init_anthropic, hg, hgem, ha, hct]
  · intro hk hct
    simp [init_llm, init_gemini, hk, hct]
  · intro hg hgem ha ho
    simp [init_llm, init_gemini, init_anthropic, init_openai, hg, hgem, ha, ho]
  · intro hg hgem
    simp [init_llm, init_gemini, hg, hgem]
  · intro m hk hct
    simp [init_llm, init_gemini, hk, hct, pyExcMsg]
  · intro m hk hct
    simp [init_llm, init_gemini, hk, hct]
  · intro e hk hct
    simp [init_llm, init_gemini, hk, hct]

/-- C9 witness: the selection contract at concrete environments: only
the Anthropic key set selects Anthropic; only the Google key set
selects Gemini; no key raises the listing error; an explicit google
request without a Google key raises the error naming google even though
the Anthropic key is present; an explicit google request whose import
fails raises the missing-dependency error. -/
theorem c9_provider_selection_witness :
    init_llm envAnthOnly ctorsOk none = Except.ok "Anthropic"
    ∧ init_llm envGoogle ctorsOk none = Except.ok "Gemini"
    ∧ init_llm envNone ctorsOk none = Except.error (PyExc.valueError noKeyMsg)
    ∧ init_llm envAnthOnly ctorsOk (some "google") = Except.error (PyExc.valueError
        "Initialization failed for google: API key for specified provider \x27google\x27 not found.")
    ∧ init_llm envGoogle ctorsGemImport (some "google") = Except.error (PyExc.valueError
        "Missing dependency for google: No module named langchain_google_genai") := by
  refine ⟨?_, ?_, ?_, ?_, ?_⟩
  · exact (c9_provider_selection envAnthOnly ctorsOk).1 rfl rfl rfl rfl
  · exact (c9_provider_selection envGoogle ctorsOk).2.1 rfl rfl
  · exact (c9_provider_selection envNone ctorsOk).2.2.1 rfl rfl rfl rfl
  · exact (c9_provider_selection envAnthOnly ctorsOk).2.2.2.1 rfl rfl
  · exact (c9_provider_selection envGoogle ctorsGemImport).2.2.2.2.2.1
      "No module named langchain_google_genai" rfl rfl

/-- C9 counterexample: Google and Anthropic keys both set, Gemini
constructor raising a generic exception, Anthropic constructor fine.
The claim promises the first provider with a present credential and a
successful initialization, namely Anthropic; the code propagates the
Gemini exception unchanged, returning neither Anthropic nor any
configuration error. -/
theorem c9_fallback_init_counterexample :
    init_llm envBoth ctorsGemBoom none = Except.error (PyExc.otherError "boom")
    ∧ init_llm envBoth ctorsGemBoom none ≠ Except.ok "Anthropic"
    ∧ init_llm envBoth ctorsGemBoom none ≠ Except.error (PyExc.valueError noKeyMsg) := by
  refine ⟨by rfl, ?_, ?_⟩
  · intro h
    rw [show init_llm envBoth ctorsGemBoom none = Except.error (PyExc.otherError "boom") from rfl] at h
    cases h
  · intro h
    rw [show init_llm envBoth ctorsGemBoom none = Except.error (PyExc.otherError "boom") from rfl] at h
    injection h with h
    cases h

/-- C10: main is not total on single-stage runs.  With stage analyze,
a working provider and a non-empty scan, the conversions.json write
references converted_files, which is assigned only inside the convert
branch, so main raises a NameError there; with stage convert (analysis
artifact present), the final summary references modules, assigned only
inside the analyze branch, so main raises a NameError there. -/
theorem c10_main_not_total (env : Env) (ct : Ctors) (p : Option String) (pname : String)
    (o : AnalysisOracle) (scanned : List FileInfo) (loaded : List UnitRecord) (cenv : ConvEnv)
    (hinit : init_llm env ct p = Except.ok pname) :
    (scanned ≠ [] →
      mainRun (MainArgs.mk (some RunStage.analyze) p) env ct scanned o true loaded cenv
        = Except.error (PyRunError.nameError "converted_files"))
    ∧ mainRun (MainArgs.mk (some RunStage.convert) p) env ct scanned o true loaded cenv
        = Except.error (PyRunError.nameError "modules") := by
  constructor
  · intro hsc
    have hscb : scanned.isEmpty = false := by
      cases scanned with
      | nil => exact absurd rfl hsc
      | cons a l => rfl
    simp [mainRun, hinit, hscb]
  · simp [mainRun, hinit]

/-- C10 witness: both NameError runs at a fully concrete world: Google
provider available, one scanned file, analysis artifact present. -/
theorem c10_main_not_total_witness :
    mainRun (MainArgs.mk (some RunStage.analyze) none) envGoogle ctorsOk [smallUnit]
      oracleWholeGood true [goodRec] cenvOk
      = Except.error (PyRunError.nameError "converted_files")
    ∧ mainRun (MainArgs.mk (some RunStage.convert) none) envGoogle ctorsOk [smallUnit]
      oracleWholeGood true [goodRec] cenvOk
      = Except.error (PyRunError.nameError "modules") := by
  have h := c10_main_not_total envGoogle ctorsOk none "Gemini" oracleWholeGood [smallUnit]
    [goodRec] cenvOk rfl
  exact ⟨h.1 (by simp), h.2⟩
